import Mathlib

/-!
Verification of the `python_server` core of WA-LegacyBackend-Fork.

This file shallowly embeds the data model and the operations of
`src/python_server/state.py`, `utils.py`, `socket_server.py` and
`matrix_bridge.py` as executable Lean definitions, and proves the frozen
claims about them.

Conventions used throughout the embedding:
* Python dicts keyed by strings become functions `String → Option _` or
  association lists when insertion order matters.
* A JSON value that the code only tests for truthiness is modelled by its
  truthiness (`Option Bool`: `none` = key absent, `some b` = key present
  with truthiness `b`).
* Machine integers are `Int`/`Nat`; 32-bit hash arithmetic is done with
  explicit `% 2^32`.
* `float(...)` conversions (geolocation parsing) are not modelled: the
  parsed coordinate is kept as the raw substring handed to `float`.
-/

/-! ## Data model (`state.py`) -/

/-- The `id` sub-dictionary built for every translated message
(`utils.build_message_id` shape, inlined in `_convert_message`). -/
structure MsgId where
  serialized : String
  fromMe : Bool
  remote : String
  id : String
  participant_user : String
deriving DecidableEq, Repr

/-- The condensed quoted payload stored under `_data.quotedMsg`. -/
structure QuotedMsg where
  body : String
  type : String
deriving DecidableEq, Repr

/-- The `_data` sub-dictionary of a translated message.  All fields are
`Option`s because `_empty_message` produces an empty `_data` dict
(every key absent). -/
structure MsgData where
  author_user : Option String
  quotedMsg : Option QuotedMsg
  quotedParticipant : Option String
  quotedStanzaID : Option String
  mimetype : Option String
  size : Option Int
  width : Option Int
  height : Option Int
  caption : Option String
  lat : Option String
  lng : Option String
  mxcUrl : Option String
deriving DecidableEq, Repr

/-- A translated legacy message payload, as produced by
`MatrixBridge._convert_message` and `MatrixBridge._empty_message`.
`duration` is an `Option` because `_empty_message` omits the key. -/
structure Payload where
  type : String
  body : String
  timestamp : Int
  fromMe : Bool
  ack : Int
  duration : Option Int
  id : MsgId
  data : MsgData
  hasQuotedMsg : Bool
deriving DecidableEq, Repr

/-- `state.MessageRecord`. -/
structure MessageRecord where
  event_id : String
  room_id : String
  contact_id : String
  is_group : Bool
  payload : Payload
deriving DecidableEq, Repr

/-- `state.RoomSnapshot`. -/
structure RoomSnapshot where
  room_id : String
  contact_id : String
  is_group : Bool
  name : String
  topic : Option String := none
  avatar_url : Option String := none
  last_event_ts : Option Int := none
  last_message_id : Option String := none
  unread_count : Int := 0
  mute_expiration : Int := 0
  participants : List String := []
deriving DecidableEq, Repr

/-- `state.MessageCache`: `_cache` is the `defaultdict(deque)` of per-room
buffers (default `[]`), `_index` the global dict from event id to record,
`max_messages` the `_max` capacity. -/
structure MessageCache where
  cache : String → List MessageRecord
  index : String → Option MessageRecord
  max_messages : Nat

/-- A fresh `MessageCache(max_messages_per_room)`. -/
def MessageCache.empty (max_messages : Nat) : MessageCache :=
  { cache := fun _ => [], index := fun _ => none, max_messages }

/-- The `while len(room_deque) > self._max:` eviction loop inside
`MessageCache.add`: repeatedly `popleft` the oldest record and
`self._index.pop(removed.event_id, None)`. -/
def evictLoop : List MessageRecord → (String → Option MessageRecord) → Nat →
    List MessageRecord × (String → Option MessageRecord)
  | [], index, _ => ([], index)
  | removed :: rest, index, maxM =>
      if rest.length + 1 > maxM then
        evictLoop rest (fun e => if e = removed.event_id then none else index e) maxM
      else (removed :: rest, index)

/-- `MessageCache.add`: append the record to its room's deque, index it
under its event id, then evict from the front while over capacity. -/
def MessageCache.add (s : MessageCache) (record : MessageRecord) : MessageCache :=
  let room_deque := s.cache record.room_id ++ [record]
  let index1 : String → Option MessageRecord :=
    fun e => if e = record.event_id then some record else s.index e
  let result := evictLoop room_deque index1 s.max_messages
  { cache := fun r => if r = record.room_id then result.1 else s.cache r,
    index := result.2,
    max_messages := s.max_messages }

/-- `MessageCache.get_room`. -/
def MessageCache.get_room (s : MessageCache) (room_id : String) : List MessageRecord :=
  s.cache room_id

/-- `MessageCache.get_message`. -/
def MessageCache.get_message (s : MessageCache) (event_id : String) :
    Option MessageRecord :=
  s.index event_id

/-- `MessageCache.clear_room`: pop the room's deque and remove each of its
records' event ids from the global index. -/
def MessageCache.clear_room (s : MessageCache) (room_id : String) : MessageCache :=
  let records := s.cache room_id
  { cache := fun r => if r = room_id then [] else s.cache r,
    index := records.foldl
      (fun idx record => fun e => if e = record.event_id then none else idx e) s.index,
    max_messages := s.max_messages }

/-- The state reached by a sequence of `add` calls on a fresh cache. -/
def MessageCache.run (maxM : Nat) (records : List MessageRecord) : MessageCache :=
  records.foldl MessageCache.add (MessageCache.empty maxM)

/-- `state.MuteStore`: `_data` is the dict from contact id to expiration;
`none` models an absent key. -/
structure MuteStore where
  data : String → Option Int

/-- A `MuteStore` whose backing file was absent or empty (`{}`). -/
def MuteStore.empty : MuteStore := { data := fun _ => none }

/-- `MuteStore.get`: `int(self._data.get(contact_id, 0))`. -/
def MuteStore.get (s : MuteStore) (contact_id : String) : Int :=
  (s.data contact_id).getD 0

/-- `MuteStore.set`: an expiration `≤ 0` pops the entry, otherwise it is
inserted/overwritten. -/
def MuteStore.set (s : MuteStore) (contact_id : String) (expiration : Int) :
    MuteStore :=
  if expiration ≤ 0 then
    { data := fun c => if c = contact_id then none else s.data c }
  else
    { data := fun c => if c = contact_id then some expiration else s.data c }

/-- `state.RoomDirectory`: a Python dict keyed by room id; insertion order
is observable through `all()`, so the model is an association list where
`upsert` overwrites in place (as dict assignment does). -/
structure RoomDirectory where
  rooms : List (String × RoomSnapshot)

/-- `RoomDirectory.upsert`. -/
def RoomDirectory.upsert (d : RoomDirectory) (snapshot : RoomSnapshot) :
    RoomDirectory :=
  if d.rooms.any (fun kv => kv.1 == snapshot.room_id) then
    { rooms := d.rooms.map
        (fun kv => if kv.1 = snapshot.room_id then (kv.1, snapshot) else kv) }
  else { rooms := d.rooms ++ [(snapshot.room_id, snapshot)] }

/-- `RoomDirectory.get`. -/
def RoomDirectory.get (d : RoomDirectory) (room_id : String) : Option RoomSnapshot :=
  (d.rooms.find? (fun kv => kv.1 == room_id)).map Prod.snd

/-- `RoomDirectory.all`: the snapshots in dict (insertion) order. -/
def RoomDirectory.all (d : RoomDirectory) : List RoomSnapshot :=
  d.rooms.map Prod.snd

/-- `RoomDirectory.by_contact_id`: first snapshot with the contact id. -/
def RoomDirectory.by_contact_id (d : RoomDirectory) (contact_id : String) :
    Option RoomSnapshot :=
  d.all.find? (fun snap => snap.contact_id == contact_id)

/-! ## `MatrixBridge.set_mute` (`matrix_bridge.py:366`) -/

/-- `MatrixBridge.set_mute`: level `-1` stores `0` (removing the entry);
levels `0`/`1` add the offsets from the `offsets` dict (8 hours, 1 week);
level `2` adds ten 365-day years; any other level adds `offsets.get(level, 0)
= 0`. `now` is `int(time.time())`. -/
def set_mute (mutes : MuteStore) (now : Int) (contact_id : String)
    (mute_level : Int) : MuteStore :=
  if mute_level = -1 then
    mutes.set contact_id 0
  else
    let offsets : Int :=
      if mute_level = 0 then 8 * 60 * 60
      else if mute_level = 1 then 7 * 24 * 60 * 60
      else 0
    let expiration : Int :=
      if mute_level = 2 then now + 10 * 365 * 24 * 60 * 60 else now + offsets
    mutes.set contact_id expiration

/-! ## `utils.py`: identifier derivation

`contact_id_from_room` / `contact_id_from_user` call `hashlib.sha1` /
`hashlib.md5` on the UTF-8 encoding of the id and truncate the lowercase
hex digest to 16 characters.  The two hash functions are embedded in full
below, operating on byte lists (`Nat`s), with all 32-bit word arithmetic
made explicit with `% 2 ^ 32`. -/

/-- Reduce to a 32-bit word. -/
def w32 (x : Nat) : Nat := x % 4294967296

/-- Rotate a 32-bit word left by `n` (for `x < 2^32`, `0 < n < 32`). -/
def rotl32 (x : Nat) (n : Nat) : Nat :=
  w32 (x <<< n) + x >>> (32 - n)

/-- Big-endian byte decomposition of a 32-bit word. -/
def wordBE (w : Nat) : List Nat :=
  [w >>> 24 % 256, w >>> 16 % 256, w >>> 8 % 256, w % 256]

/-- Little-endian byte decomposition of a 32-bit word. -/
def wordLE (w : Nat) : List Nat :=
  [w % 256, w >>> 8 % 256, w >>> 16 % 256, w >>> 24 % 256]

/-- Big-endian 64-bit byte decomposition (message bit length, SHA-1). -/
def beBytes64 (x : Nat) : List Nat :=
  (List.range 8).map (fun i => x >>> (8 * (7 - i)) % 256)

/-- Little-endian 64-bit byte decomposition (message bit length, MD5). -/
def leBytes64 (x : Nat) : List Nat :=
  (List.range 8).map (fun i => x >>> (8 * i) % 256)

/-- Merkle–Damgård padding shared by SHA-1 and MD5: append `0x80`, zero
bytes to 56 mod 64, then the 64-bit message bit length. -/
def mdPad (lenBytes : Nat → List Nat) (msg : List Nat) : List Nat :=
  let zeros := (119 - msg.length % 64) % 64
  msg ++ [128] ++ List.replicate zeros 0 ++ lenBytes (msg.length * 8)

/-- Split a list into chunks of `n` (the padded message into 64-byte
blocks). -/
def chunksOf (n : Nat) (l : List Nat) : List (List Nat) :=
  if l = [] ∨ n = 0 then [] else
    l.take n :: chunksOf n (l.drop n)
termination_by l.length
decreasing_by
  simp only [List.length_drop]
  rename_i h
  rcases Nat.eq_zero_or_pos n with h0 | h0
  · exact absurd (Or.inr h0) h
  · have : l.length ≠ 0 := by
      intro hl
      exact h (Or.inl (List.eq_nil_of_length_eq_zero hl))
    omega

/-- The big-endian 32-bit word starting at byte offset `i` of a block. -/
def wordAtBE (chunk : List Nat) (i : Nat) : Nat :=
  chunk.getD i 0 <<< 24 + chunk.getD (i + 1) 0 <<< 16 +
    chunk.getD (i + 2) 0 <<< 8 + chunk.getD (i + 3) 0

/-- The little-endian 32-bit word starting at byte offset `i` of a block. -/
def wordAtLE (chunk : List Nat) (i : Nat) : Nat :=
  chunk.getD (i + 3) 0 <<< 24 + chunk.getD (i + 2) 0 <<< 16 +
    chunk.getD (i + 1) 0 <<< 8 + chunk.getD i 0

/-- One step of the SHA-1 message-schedule extension: append
`rotl1 (w[t-3] xor w[t-8] xor w[t-14] xor w[t-16])`. -/
def sha1ExtendStep (ws : List Nat) : List Nat :=
  let n := ws.length
  ws ++ [rotl32 (ws.getD (n - 3) 0 ^^^ ws.getD (n - 8) 0 ^^^
                 ws.getD (n - 14) 0 ^^^ ws.getD (n - 16) 0) 1]

/-- Iterate the extension step `n` times. -/
def iterateN {α : Type} (f : α → α) : Nat → α → α
  | 0, a => a
  | n + 1, a => iterateN f n (f a)

/-- The 80-entry SHA-1 message schedule of one block. -/
def sha1Schedule (chunk : List Nat) : List Nat :=
  iterateN sha1ExtendStep 64 ((List.range 16).map (fun i => wordAtBE chunk (4 * i)))

/-- One of the 80 SHA-1 rounds. -/
def sha1Round (w : List Nat) (st : Nat × Nat × Nat × Nat × Nat) (i : Nat) :
    Nat × Nat × Nat × Nat × Nat :=
  let (a, b, c, d, e) := st
  let f :=
    if i < 20 then (b &&& c) ||| ((b ^^^ 4294967295) &&& d)
    else if i < 40 then b ^^^ c ^^^ d
    else if i < 60 then (b &&& c) ||| (b &&& d) ||| (c &&& d)
    else b ^^^ c ^^^ d
  let k :=
    if i < 20 then 0x5A827999
    else if i < 40 then 0x6ED9EBA1
    else if i < 60 then 0x8F1BBCDC
    else 0xCA62C1D6
  let temp := w32 (rotl32 a 5 + f + e + k + w.getD i 0)
  (temp, a, rotl32 b 30, c, d)

/-- SHA-1 compression of one 64-byte block. -/
def sha1Chunk (h : Nat × Nat × Nat × Nat × Nat) (chunk : List Nat) :
    Nat × Nat × Nat × Nat × Nat :=
  let w := sha1Schedule chunk
  let (h0, h1, h2, h3, h4) := h
  let fin := (List.range 80).foldl (sha1Round w) (h0, h1, h2, h3, h4)
  (w32 (h0 + fin.1), w32 (h1 + fin.2.1), w32 (h2 + fin.2.2.1),
   w32 (h3 + fin.2.2.2.1), w32 (h4 + fin.2.2.2.2))

/-- `hashlib.sha1(msg).digest()` as a list of 20 bytes. -/
def sha1 (msg : List Nat) : List Nat :=
  let padded := mdPad beBytes64 msg
  let fin := (chunksOf 64 padded).foldl sha1Chunk
    (0x67452301, 0xEFCDAB89, 0x98BADCFE, 0x10325476, 0xC3D2E1F0)
  wordBE fin.1 ++ wordBE fin.2.1 ++ wordBE fin.2.2.1 ++
    wordBE fin.2.2.2.1 ++ wordBE fin.2.2.2.2

/-- The 64 MD5 round constants `floor(abs(sin(i+1)) * 2^32)` (RFC 1321). -/
def md5K : List Nat :=
  [0xd76aa478, 0xe8c7b756, 0x242070db, 0xc1bdceee, 0xf57c0faf, 0x4787c62a, 0xa8304613, 0xfd469501,
   0x698098d8, 0x8b44f7af, 0xffff5bb1, 0x895cd7be, 0x6b901122, 0xfd987193, 0xa679438e, 0x49b40821,
   0xf61e2562, 0xc040b340, 0x265e5a51, 0xe9b6c7aa, 0xd62f105d, 0x02441453, 0xd8a1e681, 0xe7d3fbc8,
   0x21e1cde6, 0xc33707d6, 0xf4d50d87, 0x455a14ed, 0xa9e3e905, 0xfcefa3f8, 0x676f02d9, 0x8d2a4c8a,
   0xfffa3942, 0x8771f681, 0x6d9d6122, 0xfde5380c, 0xa4beea44, 0x4bdecfa9, 0xf6bb4b60, 0xbebfbc70,
   0x289b7ec6, 0xeaa127fa, 0xd4ef3085, 0x04881d05, 0xd9d4d039, 0xe6db99e5, 0x1fa27cf8, 0xc4ac5665,
   0xf4292244, 0x432aff97, 0xab9423a7, 0xfc93a039, 0x655b59c3, 0x8f0ccc92, 0xffeff47d, 0x85845dd1,
   0x6fa87e4f, 0xfe2ce6e0, 0xa3014314, 0x4e0811a1, 0xf7537e82, 0xbd3af235, 0x2ad7d2bb, 0xeb86d391]

/-- The 64 MD5 per-round left-rotation amounts (RFC 1321). -/
def md5S : List Nat :=
  [7, 12, 17, 22, 7, 12, 17, 22, 7, 12, 17, 22, 7, 12, 17, 22,
   5, 9, 14, 20, 5, 9, 14, 20, 5, 9, 14, 20, 5, 9, 14, 20,
   4, 11, 16, 23, 4, 11, 16, 23, 4, 11, 16, 23, 4, 11, 16, 23,
   6, 10, 15, 21, 6, 10, 15, 21, 6, 10, 15, 21, 6, 10, 15, 21]

/-- One of the 64 MD5 rounds. -/
def md5Round (m : List Nat) (st : Nat × Nat × Nat × Nat) (i : Nat) :
    Nat × Nat × Nat × Nat :=
  let (a, b, c, d) := st
  let f :=
    if i < 16 then (b &&& c) ||| ((b ^^^ 4294967295) &&& d)
    else if i < 32 then (d &&& b) ||| ((d ^^^ 4294967295) &&& c)
    else if i < 48 then b ^^^ c ^^^ d
    else c ^^^ (b ||| (d ^^^ 4294967295))
  let g :=
    if i < 16 then i
    else if i < 32 then (5 * i + 1) % 16
    else if i < 48 then (3 * i + 5) % 16
    else (7 * i) % 16
  let temp := w32 (f + a + md5K.getD i 0 + m.getD g 0)
  (d, w32 (b + rotl32 temp (md5S.getD i 0)), b, c)

/-- MD5 compression of one 64-byte block. -/
def md5Chunk (h : Nat × Nat × Nat × Nat) (chunk : List Nat) :
    Nat × Nat × Nat × Nat :=
  let m := (List.range 16).map (fun i => wordAtLE chunk (4 * i))
  let (a0, b0, c0, d0) := h
  let fin := (List.range 64).foldl (md5Round m) (a0, b0, c0, d0)
  (w32 (a0 + fin.1), w32 (b0 + fin.2.1), w32 (c0 + fin.2.2.1), w32 (d0 + fin.2.2.2))

/-- `hashlib.md5(msg).digest()` as a list of 16 bytes. -/
def md5 (msg : List Nat) : List Nat :=
  let padded := mdPad leBytes64 msg
  let fin := (chunksOf 64 padded).foldl md5Chunk
    (0x67452301, 0xefcdab89, 0x98badcfe, 0x10325476)
  wordLE fin.1 ++ wordLE fin.2.1 ++ wordLE fin.2.2.1 ++ wordLE fin.2.2.2

/-- The sixteen lowercase hex digits. -/
def hexChars : List Char :=
  "0123456789abcdef".data

/-- The two lowercase hex characters of one byte. -/
def byteToHex (b : Nat) : List Char :=
  [hexChars.getD (b >>> 4 % 16) '0', hexChars.getD (b % 16) '0']

/-- `.hexdigest()`: the lowercase hex string of a digest. -/
def hexdigest (digest : List Nat) : String :=
  ⟨(digest.map byteToHex).foldr (· ++ ·) []⟩

/-- The UTF-8 bytes of a string (`.encode("utf-8")`). -/
def strBytes (s : String) : List Nat :=
  s.toUTF8.toList.map UInt8.toNat

/-- `utils.contact_id_from_room`: first 16 hex characters of the SHA-1
digest of the UTF-8 room id. -/
def contact_id_from_room (room_id : String) : String :=
  ⟨(hexdigest (sha1 (strBytes room_id))).data.take 16⟩

/-- `utils.contact_id_from_user`: first 16 hex characters of the MD5
digest of the UTF-8 user id. -/
def contact_id_from_user (user_id : String) : String :=
  ⟨(hexdigest (md5 (strBytes user_id))).data.take 16⟩

/-- `utils.jid_from_contact`: `f"{contact_id}@{suffix}"` with suffix
`g.us` for groups and `c.us` for direct contacts. -/
def jid_from_contact (contact_id : String) (is_group : Bool) : String :=
  let suffix := if is_group then "g.us" else "c.us"
  contact_id ++ "@" ++ suffix

/-! ## `socket_server.py`: the notification socket

The per-connection protocol of `NotificationSocketServer` is modelled as a
transition system.  A client payload is modelled by what
`_handle_payload` observes of it: whether `json.loads` succeeds, and the
`sender` / `token` fields of the decoded object. -/

/-- What `_handle_payload` sees of one client payload. -/
inductive ClientPayload
  | malformed : ClientPayload
  | jsonData : Option String → Option String → ClientPayload
deriving DecidableEq, Repr

/-- A frame written to one client's writer. -/
inductive SocketFrame
  | greeting : String → SocketFrame
  | authOk : SocketFrame
  | authReject : SocketFrame
  | event : String → SocketFrame
deriving DecidableEq, Repr

/-- `socket_server.SocketClient`, with `connected` for membership in
`self._clients` and `received` for the frames written to its writer. -/
structure SocketClient where
  cid : Nat
  authenticated : Bool
  connected : Bool
  received : List SocketFrame
deriving DecidableEq, Repr

/-- The server's client registry (dropped clients are kept around with
`connected = false` so their received frames stay observable). -/
structure ServerState where
  clients : List SocketClient
deriving DecidableEq, Repr

/-- Externally visible happenings at the server. -/
inductive SocketAction
  | connect : Nat → SocketAction
  | payloadFrom : Nat → ClientPayload → SocketAction
  | broadcast : String → SocketAction
deriving DecidableEq, Repr

/-- `_handle_payload` acting on the one client it was invoked for:
malformed JSON drops the client with no response; an unauthenticated
client is authenticated and acknowledged on the right `sender`/`token`
pair and otherwise sent a `reject` frame and dropped; payloads from an
authenticated client are ignored. -/
def handlePayloadClient (client_token : String) (c : SocketClient)
    (p : ClientPayload) : SocketClient :=
  match p with
  | .malformed => { c with connected := false }
  | .jsonData sender token =>
    if c.authenticated then c
    else if sender = some "wspl-client" ∧ token = some client_token then
      { c with authenticated := true, received := c.received ++ [SocketFrame.authOk] }
    else
      { c with received := c.received ++ [SocketFrame.authReject], connected := false }

/-- One server step.  `connect` registers a client and immediately sends
the greeting frame with the server token (`_handle_client`); a payload is
routed to its (connected) client; `broadcast` appends the event to every
connected *authenticated* client's writer and skips all others. -/
def socketStep (server_token client_token : String) (st : ServerState) :
    SocketAction → ServerState
  | .connect cid =>
      let fresh : SocketClient :=
        { cid := cid, authenticated := false, connected := true,
          received := [SocketFrame.greeting server_token] }
      { clients := st.clients ++ [fresh] }
  | .payloadFrom cid p =>
      { clients := st.clients.map (fun c =>
          if c.cid = cid ∧ c.connected then handlePayloadClient client_token c p
          else c) }
  | .broadcast msg =>
      { clients := st.clients.map (fun c =>
          if c.connected && c.authenticated then
            { c with received := c.received ++ [SocketFrame.event msg] }
          else c) }

/-- Run a sequence of actions against a freshly started server. -/
def socketRun (server_token client_token : String) (acts : List SocketAction) :
    ServerState :=
  acts.foldl (socketStep server_token client_token) { clients := [] }

/-- A payload that does not authenticate: malformed, or a JSON object
whose `sender`/`token` pair is wrong. -/
def invalidAuth (client_token : String) : ClientPayload → Prop
  | .malformed => True
  | .jsonData sender token => ¬(sender = some "wspl-client" ∧ token = some client_token)

/-! ## `matrix_bridge.py`: event translation -/

/-- What `_convert_message`, `_map_msgtype`, `_duration_from_content` and
the geo extractors read from a message event's `content` dict.  `info_*`
fields flatten `content.get("info", {})`; `voice` is the
`org.matrix.msc2516.voice` entry modelled by presence and truthiness
(`send_voice_note` attaches `{}`, whose truthiness is `false`);
`in_reply_to` is `content["m.relates_to"]["m.in_reply_to"]` modelled as
presence-and-truthiness of the `m.in_reply_to` value (outer `Option`)
and its `event_id` field (inner `Option`). -/
structure EventContent where
  msgtype : Option String := none
  body : Option String := none
  info_mimetype : Option String := none
  info_size : Option Int := none
  info_w : Option Int := none
  info_h : Option Int := none
  info_duration : Option Int := none
  duration : Option Int := none
  url : Option String := none
  geo_uri : Option String := none
  voice : Option Bool := none
  in_reply_to : Option (Option String) := none
deriving DecidableEq, Repr

/-- A room timeline event as `_process_timeline` / `_convert_message`
see it (`server_timestamp` kept optional: `0`/`None` are falsy and fall
back to the current time). -/
structure MatrixEvent where
  type : String
  event_id : String
  sender : String
  server_timestamp : Option Int := none
  content : EventContent := {}
deriving DecidableEq, Repr

/-- `MatrixBridge._map_msgtype`. -/
def _map_msgtype (msgtype : String) (content : EventContent) : String :=
  if msgtype = "m.text" then "chat"
  else if msgtype = "m.notice" then "chat"
  else if msgtype = "m.emote" then "chat"
  else if msgtype = "m.image" then "image"
  else if msgtype = "m.video" then "video"
  else if msgtype = "m.file" then "document"
  else if msgtype = "m.audio" then
    if content.voice = some true then "ptt" else "audio"
  else if msgtype = "m.location" then "location"
  else if msgtype = "m.sticker" then "sticker"
  else "chat"

/-- `MatrixBridge._duration_from_content`:
`info.get("duration") or content.get("duration")` (Python `or` also falls
through on a falsy `0`), `0` when falsy, else `int(duration_ms / 1000)`. -/
def _duration_from_content (content : EventContent) : Int :=
  let duration_ms : Option Int :=
    match content.info_duration with
    | some v => if v = 0 then content.duration else some v
    | none => content.duration
  match duration_ms with
  | none => 0
  | some v => if v = 0 then 0 else v / 1000

/-- `MatrixBridge._extract_lat`: strip `geo:`, split on `","`, succeed
only with exactly two parts.  The `float(...)` conversion is not
modelled; the raw first part is returned. -/
def _extract_lat (content : EventContent) : Option String :=
  match content.geo_uri with
  | none => none
  | some geo =>
    if geo = "" then none
    else
      let parts := (geo.replace "geo:" "").splitOn ","
      if parts.length = 2 then parts.head? else none

/-- `MatrixBridge._extract_lng`: as `_extract_lat` but the second part. -/
def _extract_lng (content : EventContent) : Option String :=
  match content.geo_uri with
  | none => none
  | some geo =>
    if geo = "" then none
    else
      let parts := (geo.replace "geo:" "").splitOn ","
      if parts.length = 2 then parts.getLast? else none

/-- `MatrixBridge._convert_message`.  `self_user_id` is
`config.matrix.user_id`, `now_ms` stands for `int(time.time() * 1000)`,
and `messages` is the bridge's `MessageCache` used for reply lookup.
The `_user_contact_map` cache population is a side effect with no
observable impact on the returned payload and is not modelled. -/
def _convert_message (self_user_id : String) (messages : MessageCache)
    (now_ms : Int) (snapshot : RoomSnapshot) (event : MatrixEvent) :
    Option Payload :=
  let content := event.content
  let msgtype := content.msgtype.getD "m.text"
  let timestamp :=
    match event.server_timestamp with
    | some ts => if ts = 0 then now_ms else ts
    | none => now_ms
  let from_me := event.sender == self_user_id
  let contact_jid := jid_from_contact snapshot.contact_id snapshot.is_group
  let author_id := contact_id_from_user event.sender
  let base : Payload := {
    type := _map_msgtype msgtype content,
    body := content.body.getD "",
    timestamp := timestamp / 1000,
    fromMe := from_me,
    ack := if from_me then 4 else 2,
    duration := some (_duration_from_content content),
    id := { serialized := event.event_id, fromMe := from_me, remote := contact_jid,
            id := event.event_id, participant_user := author_id },
    data := {
      author_user := some author_id,
      quotedMsg := none, quotedParticipant := none, quotedStanzaID := none,
      mimetype := content.info_mimetype, size := content.info_size,
      width := content.info_w, height := content.info_h,
      caption := content.body,
      lat := _extract_lat content, lng := _extract_lng content,
      mxcUrl := content.url },
    hasQuotedMsg := false }
  match content.in_reply_to with
  | none => some base
  | some reply_event_id =>
    match (match reply_event_id with
           | some eid => messages.get_message eid
           | none => none) with
    | none => some base
    | some quoted =>
      some { base with
        data := { base.data with
          quotedMsg := some { body := quoted.payload.body,
                              type := quoted.payload.type },
          quotedParticipant := some quoted.payload.id.participant_user,
          quotedStanzaID := some quoted.payload.id.serialized },
        hasQuotedMsg := true }

/-! ## `matrix_bridge.py`: chat listing and timeline processing -/

/-- The chat dictionary built by `MatrixBridge._snapshot_to_chat`. -/
structure ChatDict where
  id_user : String
  id_server : String
  name : String
  isGroup : Bool
  timestamp : Int
  muteExpiration : Int
  unreadCount : Int
  groupDesc : String
  lastMessage : Payload
  idServer : String
deriving DecidableEq, Repr

/-- `MatrixBridge._empty_message` (placeholder when a snapshot's last
message is not cached); `now` is `int(time.time())`. -/
def _empty_message (now : Int) (snapshot : RoomSnapshot) : Payload :=
  let jid := jid_from_contact snapshot.contact_id snapshot.is_group
  { type := "chat", body := "", timestamp := now, fromMe := false, ack := 0,
    duration := none,
    id := { serialized := jid ++ "-placeholder", fromMe := false, remote := jid,
            id := "placeholder", participant_user := snapshot.contact_id },
    data := { author_user := none, quotedMsg := none, quotedParticipant := none,
              quotedStanzaID := none, mimetype := none, size := none,
              width := none, height := none, caption := none, lat := none,
              lng := none, mxcUrl := none },
    hasQuotedMsg := false }

/-- `MatrixBridge._snapshot_to_chat`.  `if snapshot.last_message_id` is a
truthiness test, so an empty-string id also skips the cache lookup. -/
def _snapshot_to_chat (messages : MessageCache) (mutes : MuteStore) (now : Int)
    (snapshot : RoomSnapshot) : ChatDict :=
  let record : Option MessageRecord :=
    match snapshot.last_message_id with
    | some mid => if mid = "" then none else messages.get_message mid
    | none => none
  let last_message :=
    match record with
    | some r => r.payload
    | none => _empty_message now snapshot
  let jid := jid_from_contact snapshot.contact_id snapshot.is_group
  { id_user := snapshot.contact_id,
    id_server := if snapshot.is_group then "g.us" else "c.us",
    name := snapshot.name,
    isGroup := snapshot.is_group,
    timestamp := snapshot.last_event_ts.getD 0,
    muteExpiration := mutes.get snapshot.contact_id,
    unreadCount := snapshot.unread_count,
    groupDesc := snapshot.topic.getD "",
    lastMessage := last_message,
    idServer := jid }

/-- `MatrixBridge.get_chats`: build a chat dict per snapshot (appending
group snapshots' dicts to the group list as well), then sort **only** the
chat list by timestamp descending (`list.sort` is stable; with
`reverse=True` ties keep their original order, which stable
`mergeSort` with `b.timestamp ≤ a.timestamp` reproduces).  Returns
`(chatList, groupList)`. -/
def get_chats (directory : RoomDirectory) (messages : MessageCache)
    (mutes : MuteStore) (now : Int) : List ChatDict × List ChatDict :=
  let chats := directory.all.map (_snapshot_to_chat messages mutes now)
  let groups := (directory.all.filter (fun s => s.is_group)).map
    (_snapshot_to_chat messages mutes now)
  (chats.mergeSort (fun a b => b.timestamp ≤ a.timestamp), groups)

/-- One notification handed to `NotificationSocketServer.broadcast` by the
sync path.  `newMessageNoti.author` is `converted.get("author",
{}).get("user")`, which is always `None` because the translated payload
has no top-level `author` key. -/
inductive BroadcastMsg
  | newMessageNoti (msgBody : String) (fromContact : String)
      (author : Option String) (msgType : String)
  | ackMessage (fromContact : String) (msgId : String) (ack : Int)
  | revokeMessage
  | contactChangeState (status : String) (fromContact : String)
deriving DecidableEq, Repr

/-- One step of the loop body of `MatrixBridge._process_timeline`. -/
def processTimelineStep (self_user_id : String) (now_ms : Int)
    (acc : RoomSnapshot × MessageCache × List BroadcastMsg)
    (event : MatrixEvent) : RoomSnapshot × MessageCache × List BroadcastMsg :=
  let (snap, msgs, outs) := acc
  if event.type = "m.room.message" then
    match _convert_message self_user_id msgs now_ms snap event with
    | none => acc
    | some converted =>
      let record : MessageRecord :=
        { event_id := converted.id.serialized, room_id := snap.room_id,
          contact_id := snap.contact_id, is_group := snap.is_group,
          payload := converted }
      ({ snap with last_message_id := some record.event_id },
       msgs.add record,
       outs ++ [BroadcastMsg.newMessageNoti converted.body snap.contact_id
                  none converted.type,
                BroadcastMsg.ackMessage snap.contact_id record.event_id
                  (if converted.fromMe then 4 else 2)])
  else if event.type = "m.room.redaction" then
    (snap, msgs, outs ++ [BroadcastMsg.revokeMessage])
  else acc

/-- `MatrixBridge._process_timeline` on one batch of timeline events,
returning the updated snapshot, the updated message cache and the
broadcasts dispatched (in spawn order). -/
def _process_timeline (self_user_id : String) (now_ms : Int)
    (snapshot : RoomSnapshot) (messages : MessageCache)
    (events : List MatrixEvent) :
    RoomSnapshot × MessageCache × List BroadcastMsg :=
  events.foldl (processTimelineStep self_user_id now_ms) (snapshot, messages, [])

/-- The bridge-owned state touched by `delete_chat_history`. -/
structure BridgeState where
  state : RoomDirectory
  messages : MessageCache
  mutes : MuteStore

/-- `MatrixBridge.delete_chat_history`: clears the room's message cache
and touches nothing else. -/
def delete_chat_history (b : BridgeState) (snapshot : RoomSnapshot) :
    BridgeState :=
  { b with messages := b.messages.clear_room snapshot.room_id }

/-! ## Concrete example data used by witnesses and counterexamples -/

/-- The consistency invariant tying the per-room buffers to the global
index: buffers are within capacity, hold only records of their own room,
have pairwise distinct event ids, and the index is exactly the union of
the buffers. -/
structure CacheInv (s : MessageCache) : Prop where
  capacity : ∀ room, (s.cache room).length ≤ s.max_messages
  roomKey : ∀ room rec, rec ∈ s.cache room → rec.room_id = room
  nodupIds : ∀ room, ((s.cache room).map MessageRecord.event_id).Nodup
  indexed : ∀ room rec, rec ∈ s.cache room → s.index rec.event_id = some rec
  indexSound : ∀ e rec, s.index e = some rec →
    rec.event_id = e ∧ rec ∈ s.cache rec.room_id

/-- A small concrete payload used by the concrete test states. -/
def examplePayload : Payload :=
  { type := "chat", body := "hello", timestamp := 5, fromMe := false, ack := 2,
    duration := some 0,
    id := { serialized := "$e1", fromMe := false, remote := "x@c.us",
            id := "$e1", participant_user := "p1" },
    data := { author_user := some "p1", quotedMsg := none,
              quotedParticipant := none, quotedStanzaID := none,
              mimetype := none, size := none, width := none, height := none,
              caption := some "hello", lat := none, lng := none,
              mxcUrl := none },
    hasQuotedMsg := false }

/-- A concrete record with a given event id and room. -/
def exRec (e room : String) : MessageRecord :=
  { event_id := e, room_id := room, contact_id := "c1", is_group := false,
    payload := examplePayload }

/-- The `m.audio` content assembled by `send_voice_note` itself: the
voice marker `org.matrix.msc2516.voice` is the empty dict, which is falsy
in Python, hence `voice := some false`. -/
def sentVoiceNoteContent : EventContent :=
  { msgtype := some "m.audio", body := some "Voice note",
    url := some "mxc://voice-note", info_mimetype := some "audio/ogg",
    info_size := some 11, voice := some false }

/-- A concrete direct-chat snapshot. -/
def exSnapshot : RoomSnapshot :=
  { room_id := "!r:hs", contact_id := "c1", is_group := false, name := "Room" }

/-- A concrete message event replying to event id `$a`. -/
def exReplyEvent : MatrixEvent :=
  { type := "m.room.message", event_id := "$b", sender := "@u:hs",
    server_timestamp := some 2000,
    content := { msgtype := some "m.text", body := some "reply body",
                 in_reply_to := some (some "$a") } }

/-- A concrete redaction event. -/
def exRedactionEvent : MatrixEvent :=
  { type := "m.room.redaction", event_id := "$r", sender := "@u:hs" }

/-- A concrete group snapshot with a given activity timestamp. -/
def exGroupSnap (rid : String) (ts : Int) : RoomSnapshot :=
  { room_id := rid, contact_id := rid, is_group := true, name := rid,
    last_event_ts := some ts }

/-! ## Lemmas: the eviction loop -/

/-- The eviction loop keeps exactly the last `maxM` entries of the deque:
it drops the oldest `dq.length - maxM` records from the front. -/
lemma evictLoop_fst (dq : List MessageRecord) (idx : String → Option MessageRecord)
    (maxM : Nat) : (evictLoop dq idx maxM).1 = dq.drop (dq.length - maxM) := by
  induction dq generalizing idx with
  | nil => simp [evictLoop]
  | cons removed rest ih =>
    by_cases h : rest.length + 1 > maxM
    · have hd : rest.length + 1 - maxM = (rest.length - maxM) + 1 := by omega
      simp only [evictLoop, if_pos h, List.length_cons, hd, List.drop_succ_cons]
      exact ih _
    · have hd : rest.length + 1 - maxM = 0 := by omega
      simp [evictLoop, if_neg h, hd]

/-- The eviction loop removes from the index exactly the event ids of the
dropped prefix. -/
lemma evictLoop_snd (dq : List MessageRecord) (idx : String → Option MessageRecord)
    (maxM : Nat) (e : String) :
    (evictLoop dq idx maxM).2 e =
      if e ∈ (dq.map MessageRecord.event_id).take (dq.length - maxM) then none
      else idx e := by
  induction dq generalizing idx with
  | nil => simp [evictLoop]
  | cons removed rest ih =>
    by_cases h : rest.length + 1 > maxM
    · have hd : rest.length + 1 - maxM = (rest.length - maxM) + 1 := by omega
      simp only [evictLoop, if_pos h, List.length_cons, hd, List.map_cons,
        List.take_succ_cons, List.mem_cons]
      rw [ih]
      by_cases he : e ∈ (rest.map MessageRecord.event_id).take (rest.length - maxM)
      · simp [he]
      · by_cases hr : e = removed.event_id
        · simp [he, hr]
        · simp [he, hr]
    · have hd : rest.length + 1 - maxM = 0 := by omega
      simp [evictLoop, if_neg h, hd]

/-! ## Lemmas: `MessageCache.add` characterization and invariant -/

/-- `add` leaves the capacity setting alone. -/
lemma add_max_messages (s : MessageCache) (r : MessageRecord) :
    (s.add r).max_messages = s.max_messages := rfl

/-- `add` on the record's own room: append, then drop the oldest overflow
from the front (FIFO eviction). -/
lemma add_cache_room (s : MessageCache) (r : MessageRecord) :
    (s.add r).cache r.room_id
      = (s.cache r.room_id ++ [r]).drop
          ((s.cache r.room_id ++ [r]).length - s.max_messages) := by
  simp [MessageCache.add, evictLoop_fst]

/-- `add` does not touch other rooms' buffers. -/
lemma add_cache_other (s : MessageCache) (r : MessageRecord) (room : String)
    (h : room ≠ r.room_id) : (s.add r).cache room = s.cache room := by
  simp [MessageCache.add, h]

/-- The index after `add`: evicted ids are gone, the new record is
indexed, everything else is as before. -/
lemma add_index (s : MessageCache) (r : MessageRecord) (e : String) :
    (s.add r).index e
      = if e ∈ ((s.cache r.room_id ++ [r]).map MessageRecord.event_id).take
            ((s.cache r.room_id ++ [r]).length - s.max_messages) then none
        else if e = r.event_id then some r else s.index e := by
  simp [MessageCache.add, evictLoop_snd]

/-- Membership in a list splits over `take`/`drop`. -/
lemma mem_take_or_drop {α : Type} (k : Nat) {l : List α} {x : α} (hx : x ∈ l) :
    x ∈ l.take k ∨ x ∈ l.drop k := by
  rw [← List.take_append_drop k l] at hx
  exact List.mem_append.mp hx

/-- A fresh cache satisfies the invariant. -/
lemma cacheInv_empty (maxM : Nat) : CacheInv (MessageCache.empty maxM) := by
  constructor <;> simp [MessageCache.empty]

/-- `add` preserves the invariant provided the added record's event id is
not already indexed. -/
lemma CacheInv.add_pres {s : MessageCache} (h : CacheInv s) (r : MessageRecord)
    (hfresh : s.index r.event_id = none) : CacheInv (s.add r) := by
  have hfreshBuf : ∀ room rec, rec ∈ s.cache room → rec.event_id ≠ r.event_id := by
    intro room rec hrec heq
    have hi := h.indexed room rec hrec
    rw [heq, hfresh] at hi
    exact Option.noConfusion hi
  have hnodup_dq :
      ((s.cache r.room_id ++ [r]).map MessageRecord.event_id).Nodup := by
    rw [List.map_append]
    rw [List.nodup_append]
    refine ⟨h.nodupIds r.room_id, by simp, ?_⟩
    intro e he1 he2
    simp only [List.map_cons, List.map_nil, List.mem_singleton] at he2
    rcases List.mem_map.mp he1 with ⟨rec, hrec, hide⟩
    exact hfreshBuf _ _ hrec (by rw [hide, he2])
  have hdisj :
      ∀ e, e ∈ (((s.cache r.room_id ++ [r]).map MessageRecord.event_id).take
          ((s.cache r.room_id ++ [r]).length - s.max_messages)) →
        e ∈ (((s.cache r.room_id ++ [r]).map MessageRecord.event_id).drop
          ((s.cache r.room_id ++ [r]).length - s.max_messages)) → False := by
    have hsplit := List.take_append_drop
      ((s.cache r.room_id ++ [r]).length - s.max_messages)
      ((s.cache r.room_id ++ [r]).map MessageRecord.event_id)
    have hnodup2 := hsplit.symm ▸ hnodup_dq
    exact fun e he1 he2 => (List.nodup_append.mp hnodup2).2.2 he1 he2
  constructor
  · -- capacity
    intro room
    rw [add_max_messages]
    by_cases hr : room = r.room_id
    · subst hr
      rw [add_cache_room, List.length_drop]
      omega
    · rw [add_cache_other _ _ _ hr]
      exact h.capacity room
  · -- roomKey
    intro room rec hrec
    by_cases hr : room = r.room_id
    · subst hr
      rw [add_cache_room] at hrec
      rcases List.mem_append.mp (List.drop_subset _ _ hrec) with hin | hin
      · exact h.roomKey _ _ hin
      · rw [List.mem_singleton] at hin
        subst hin
        rfl
    · rw [add_cache_other _ _ _ hr] at hrec
      exact h.roomKey _ _ hrec
  · -- nodupIds
    intro room
    by_cases hr : room = r.room_id
    · subst hr
      rw [add_cache_room, List.map_drop]
      exact (List.drop_sublist _ _).nodup hnodup_dq
    · rw [add_cache_other _ _ _ hr]
      exact h.nodupIds room
  · -- indexed
    intro room rec hrec
    rw [add_index]
    by_cases hr : room = r.room_id
    · subst hr
      rw [add_cache_room] at hrec
      have hmemdrop : rec.event_id ∈
          ((s.cache r.room_id ++ [r]).map MessageRecord.event_id).drop
            ((s.cache r.room_id ++ [r]).length - s.max_messages) := by
        rw [← List.map_drop]
        exact List.mem_map_of_mem _ hrec
      have hnot : rec.event_id ∉
          ((s.cache r.room_id ++ [r]).map MessageRecord.event_id).take
            ((s.cache r.room_id ++ [r]).length - s.max_messages) :=
        fun hc => hdisj _ hc hmemdrop
      rw [if_neg hnot]
      have hrecdq : rec ∈ s.cache r.room_id ++ [r] := List.drop_subset _ _ hrec
      by_cases hid : rec.event_id = r.event_id
      · have hrr : rec = r :=
          List.inj_on_of_nodup_map hnodup_dq hrecdq (by simp) hid
        rw [if_pos hid, hrr]
      · rw [if_neg hid]
        rcases List.mem_append.mp hrecdq with hin | hin
        · exact h.indexed _ _ hin
        · rw [List.mem_singleton] at hin
          subst hin
          exact absurd rfl hid
    · rw [add_cache_other _ _ _ hr] at hrec
      have hidne : rec.event_id ≠ r.event_id := hfreshBuf _ _ hrec
      have hnot : rec.event_id ∉
          ((s.cache r.room_id ++ [r]).map MessageRecord.event_id).take
            ((s.cache r.room_id ++ [r]).length - s.max_messages) := by
        intro hc
        have hcm := List.take_subset _ _ hc
        rcases List.mem_map.mp hcm with ⟨rec', hrec', hide⟩
        rcases List.mem_append.mp hrec' with hin | hin
        · have h1 := h.indexed _ _ hin
          have h2 := h.indexed _ _ hrec
          rw [hide] at h1
          rw [h1] at h2
          have hrr : rec' = rec := Option.some.inj h2
          have hk1 := h.roomKey _ _ hin
          have hk2 := h.roomKey _ _ hrec
          rw [hrr, hk2] at hk1
          exact hr hk1
        · rw [List.mem_singleton] at hin
          subst hin
          exact hidne hide.symm
      rw [if_neg hnot, if_neg hidne]
      exact h.indexed _ _ hrec
  · -- indexSound
    intro e rec hrec
    rw [add_index] at hrec
    by_cases htake : e ∈ ((s.cache r.room_id ++ [r]).map MessageRecord.event_id).take
        ((s.cache r.room_id ++ [r]).length - s.max_messages)
    · rw [if_pos htake] at hrec
      exact Option.noConfusion hrec
    · rw [if_neg htake] at hrec
      by_cases hid : e = r.event_id
      · rw [if_pos hid] at hrec
        have hrr : rec = r := (Option.some.inj hrec).symm
        have hgoal : r ∈ (s.add r).cache r.room_id := by
          rw [add_cache_room]
          have hrdq : r ∈ s.cache r.room_id ++ [r] := by simp
          rcases mem_take_or_drop
              ((s.cache r.room_id ++ [r]).length - s.max_messages) hrdq with
            hin | hin
          · exfalso
            have hm : r.event_id ∈ List.map MessageRecord.event_id
                (List.take ((s.cache r.room_id ++ [r]).length - s.max_messages)
                  (s.cache r.room_id ++ [r])) := List.mem_map_of_mem _ hin
            rw [List.map_take] at hm
            rw [hid] at htake
            exact htake hm
          · exact hin
        constructor
        · rw [hrr]
          exact hid.symm
        · rw [hrr]
          exact hgoal
      · rw [if_neg hid] at hrec
        obtain ⟨he, hbuf⟩ := h.indexSound e rec hrec
        refine ⟨he, ?_⟩
        by_cases hroom : rec.room_id = r.room_id
        · rw [hroom, add_cache_room]
          have hrecdq : rec ∈ s.cache r.room_id ++ [r] :=
            List.mem_append.mpr (Or.inl (hroom ▸ hbuf))
          rcases mem_take_or_drop
              ((s.cache r.room_id ++ [r]).length - s.max_messages) hrecdq with
            hin | hin
          · exfalso
            have hm : rec.event_id ∈ List.map MessageRecord.event_id
                (List.take ((s.cache r.room_id ++ [r]).length - s.max_messages)
                  (s.cache r.room_id ++ [r])) := List.mem_map_of_mem _ hin
            rw [List.map_take] at hm
            rw [← he] at htake
            exact htake hm
          · exact hin
        · rw [add_cache_other _ _ _ hroom]
          exact hbuf

/-- After `add`, an id different from the new record's that was unindexed
stays unindexed. -/
lemma add_index_none {s : MessageCache} {e : String} (r : MessageRecord)
    (hne : e ≠ r.event_id) (h : s.index e = none) : (s.add r).index e = none := by
  rw [add_index]
  by_cases he : e ∈ ((s.cache r.room_id ++ [r]).map MessageRecord.event_id).take
      ((s.cache r.room_id ++ [r]).length - s.max_messages)
  · rw [if_pos he]
  · rw [if_neg he, if_neg hne, h]

/-- Folding `add` over records with fresh, pairwise-distinct event ids
preserves the invariant. -/
lemma cacheInv_foldl (recs : List MessageRecord) :
    ∀ s : MessageCache, CacheInv s →
      (∀ r ∈ recs, s.index r.event_id = none) →
      (recs.map MessageRecord.event_id).Nodup →
      CacheInv (recs.foldl MessageCache.add s) := by
  induction recs with
  | nil =>
    intro s hs _ _
    simpa using hs
  | cons r rest ih =>
    intro s hs hfresh hnodup
    simp only [List.foldl_cons]
    simp only [List.map_cons, List.nodup_cons] at hnodup
    apply ih
    · exact hs.add_pres r (hfresh r (by simp))
    · intro r' hr'
      have hne : r'.event_id ≠ r.event_id := by
        intro hcon
        exact hnodup.1 (hcon ▸ List.mem_map_of_mem _ hr')
      exact add_index_none r hne (hfresh r' (by simp [hr']))
    · exact hnodup.2

/-- The invariant holds for every cache reachable by adds with pairwise
distinct event ids. -/
lemma cacheInv_run (maxM : Nat) (recs : List MessageRecord)
    (hnodup : (recs.map MessageRecord.event_id).Nodup) :
    CacheInv (MessageCache.run maxM recs) :=
  cacheInv_foldl recs (MessageCache.empty maxM) (cacheInv_empty maxM)
    (fun _ _ => rfl) hnodup

/-- Folding `add` never changes the capacity setting. -/
lemma foldl_add_max (recs : List MessageRecord) :
    ∀ s : MessageCache, (recs.foldl MessageCache.add s).max_messages
      = s.max_messages := by
  induction recs with
  | nil => intro s; rfl
  | cons r rest ih =>
    intro s
    simp only [List.foldl_cons]
    rw [ih]
    rfl

/-- Popping a list of records from the index (the loop in `clear_room`)
removes exactly their event ids. -/
lemma clearIndex_foldl (records : List MessageRecord)
    (idx : String → Option MessageRecord) (e : String) :
    (records.foldl
        (fun idx record => fun e => if e = record.event_id then none else idx e)
        idx) e
      = if e ∈ records.map MessageRecord.event_id then none else idx e := by
  induction records generalizing idx with
  | nil => simp
  | cons r rest ih =>
    simp only [List.foldl_cons, List.map_cons, List.mem_cons]
    rw [ih]
    by_cases h1 : e ∈ rest.map MessageRecord.event_id
    · simp [h1]
    · by_cases h2 : e = r.event_id
      · simp [h1, h2]
      · simp [h1, h2]

/-- Claim C1 (amended): over any sequence of `add` calls whose records
carry pairwise-distinct event ids, no room's buffer exceeds the
configured capacity; an `add` that overflows a room evicts exactly the
oldest records from the front (FIFO); and the global index holds exactly
the union of the per-room buffers, each record sitting in exactly one
buffer, indexed under its event id.  (Without the distinct-ids hypothesis
the index part fails, see the counterexample.) -/
theorem messageCache_add_invariant (maxM : Nat) (recs : List MessageRecord)
    (hnodup : (recs.map MessageRecord.event_id).Nodup) :
    (∀ room, ((MessageCache.run maxM recs).cache room).length ≤ maxM) ∧
    (∀ rec : MessageRecord,
      ((MessageCache.run maxM recs).add rec).cache rec.room_id
        = ((MessageCache.run maxM recs).cache rec.room_id ++ [rec]).drop
            (((MessageCache.run maxM recs).cache rec.room_id).length + 1 - maxM)) ∧
    (∀ room rec, rec ∈ (MessageCache.run maxM recs).cache room →
      rec.room_id = room) ∧
    (∀ e rec, (MessageCache.run maxM recs).index e = some rec ↔
      rec.event_id = e ∧ rec ∈ (MessageCache.run maxM recs).cache rec.room_id) ∧
    (∀ room room' rec rec', rec ∈ (MessageCache.run maxM recs).cache room →
      rec' ∈ (MessageCache.run maxM recs).cache room' →
      rec.event_id = rec'.event_id → room = room' ∧ rec = rec') := by
  have hinv := cacheInv_run maxM recs hnodup
  have hmax : (MessageCache.run maxM recs).max_messages = maxM :=
    foldl_add_max recs (MessageCache.empty maxM)
  refine ⟨?_, ?_, hinv.roomKey, ?_, ?_⟩
  · intro room
    have hc := hinv.capacity room
    rwa [hmax] at hc
  · intro rec
    rw [add_cache_room, hmax]
    congr 1
    simp
  · intro e rec
    constructor
    · exact hinv.indexSound e rec
    · rintro ⟨hid, hbuf⟩
      have hi := hinv.indexed _ _ hbuf
      rwa [hid] at hi
  · intro room room' rec rec' h1 h2 hid
    have hi1 := hinv.indexed _ _ h1
    have hi2 := hinv.indexed _ _ h2
    rw [hid] at hi1
    rw [hi1] at hi2
    have hrr : rec = rec' := Option.some.inj hi2
    have hk1 := hinv.roomKey _ _ h1
    have hk2 := hinv.roomKey _ _ h2
    refine ⟨?_, hrr⟩
    rw [← hk1, ← hk2, hrr]

/-- Witness for C1 at a concrete two-record sequence. -/
theorem messageCache_add_invariant_witness :
    (([exRec "$e1" "A", exRec "$e2" "B"].map MessageRecord.event_id).Nodup) ∧
    ((∀ room, ((MessageCache.run 2 [exRec "$e1" "A", exRec "$e2" "B"]).cache room).length ≤ 2) ∧
     (∀ rec : MessageRecord,
       ((MessageCache.run 2 [exRec "$e1" "A", exRec "$e2" "B"]).add rec).cache rec.room_id
         = ((MessageCache.run 2 [exRec "$e1" "A", exRec "$e2" "B"]).cache rec.room_id ++ [rec]).drop
             (((MessageCache.run 2 [exRec "$e1" "A", exRec "$e2" "B"]).cache rec.room_id).length + 1 - 2)) ∧
     (∀ room rec, rec ∈ (MessageCache.run 2 [exRec "$e1" "A", exRec "$e2" "B"]).cache room →
       rec.room_id = room) ∧
     (∀ e rec, (MessageCache.run 2 [exRec "$e1" "A", exRec "$e2" "B"]).index e = some rec ↔
       rec.event_id = e ∧
         rec ∈ (MessageCache.run 2 [exRec "$e1" "A", exRec "$e2" "B"]).cache rec.room_id) ∧
     (∀ room room' rec rec',
       rec ∈ (MessageCache.run 2 [exRec "$e1" "A", exRec "$e2" "B"]).cache room →
       rec' ∈ (MessageCache.run 2 [exRec "$e1" "A", exRec "$e2" "B"]).cache room' →
       rec.event_id = rec'.event_id → room = room' ∧ rec = rec')) :=
  ⟨by decide, messageCache_add_invariant 2 [exRec "$e1" "A", exRec "$e2" "B"] (by decide)⟩

/-- Claim C1 counterexample: adding the same event id twice to a room of
capacity 1 leaves a buffered record that the index no longer contains,
so without an id-freshness assumption the index is not the union of the
buffers. -/
theorem messageCache_duplicate_id_breaks_index :
    (exRec "$e" "A") ∈ (MessageCache.run 1 [exRec "$e" "A", exRec "$e" "A"]).cache "A" ∧
    (MessageCache.run 1 [exRec "$e" "A", exRec "$e" "A"]).index "$e" = none := by
  constructor
  · decide
  · decide

/-- Claim C2: `clear_room(r)` empties room `r`'s buffer and removes all of
its records from the global index; every other room's buffer and every
other room's index entries are unchanged, as is any index entry whose id
is not buffered in room `r`; and `delete_chat_history` only replaces the
message cache, leaving the room directory (the `RoomSnapshot`s) and the
mute store untouched. -/
theorem clear_room_frame (s : MessageCache) (hinv : CacheInv s) (room_id : String) :
    ((s.clear_room room_id).cache room_id = []) ∧
    (∀ r, r ≠ room_id → (s.clear_room room_id).cache r = s.cache r) ∧
    (∀ rec ∈ s.cache room_id, (s.clear_room room_id).index rec.event_id = none) ∧
    (∀ r, r ≠ room_id → ∀ rec ∈ s.cache r,
      (s.clear_room room_id).index rec.event_id = some rec) ∧
    (∀ e, (∀ rec ∈ s.cache room_id, rec.event_id ≠ e) →
      (s.clear_room room_id).index e = s.index e) ∧
    (∀ (b : BridgeState) (snapshot : RoomSnapshot),
      (delete_chat_history b snapshot).state = b.state ∧
      (delete_chat_history b snapshot).mutes = b.mutes ∧
      (delete_chat_history b snapshot).messages
        = b.messages.clear_room snapshot.room_id) := by
  refine ⟨?_, ?_, ?_, ?_, ?_, ?_⟩
  · simp [MessageCache.clear_room]
  · intro r hr
    simp [MessageCache.clear_room, hr]
  · intro rec hrec
    simp only [MessageCache.clear_room]
    rw [clearIndex_foldl]
    rw [if_pos (List.mem_map_of_mem _ hrec)]
  · intro r hr rec hrec
    simp only [MessageCache.clear_room]
    rw [clearIndex_foldl]
    have hnot : rec.event_id ∉ (s.cache room_id).map MessageRecord.event_id := by
      intro hc
      rcases List.mem_map.mp hc with ⟨rec', hrec', hide⟩
      have h1 := hinv.indexed _ _ hrec'
      have h2 := hinv.indexed _ _ hrec
      rw [hide] at h1
      rw [h1] at h2
      have hrr : rec' = rec := Option.some.inj h2
      have k1 := hinv.roomKey _ _ hrec'
      have k2 := hinv.roomKey _ _ hrec
      rw [hrr, k2] at k1
      exact hr k1
    rw [if_neg hnot]
    exact hinv.indexed r rec hrec
  · intro e he
    simp only [MessageCache.clear_room]
    rw [clearIndex_foldl]
    have hnot : e ∉ (s.cache room_id).map MessageRecord.event_id := by
      intro hc
      rcases List.mem_map.mp hc with ⟨rec', hrec', hide⟩
      exact he rec' hrec' hide
    rw [if_neg hnot]
  · intro b snapshot
    exact ⟨rfl, rfl, rfl⟩

/-- Witness for C2 at a concrete reachable cache with two rooms. -/
theorem clear_room_frame_witness :
    CacheInv (MessageCache.run 2 [exRec "$e1" "A", exRec "$e2" "B"]) ∧
    (((MessageCache.run 2 [exRec "$e1" "A", exRec "$e2" "B"]).clear_room "A").cache "A" = []) ∧
    (∀ r, r ≠ "A" →
      ((MessageCache.run 2 [exRec "$e1" "A", exRec "$e2" "B"]).clear_room "A").cache r
        = (MessageCache.run 2 [exRec "$e1" "A", exRec "$e2" "B"]).cache r) ∧
    (∀ rec ∈ (MessageCache.run 2 [exRec "$e1" "A", exRec "$e2" "B"]).cache "A",
      ((MessageCache.run 2 [exRec "$e1" "A", exRec "$e2" "B"]).clear_room "A").index rec.event_id = none) ∧
    (∀ r, r ≠ "A" → ∀ rec ∈ (MessageCache.run 2 [exRec "$e1" "A", exRec "$e2" "B"]).cache r,
      ((MessageCache.run 2 [exRec "$e1" "A", exRec "$e2" "B"]).clear_room "A").index rec.event_id
        = some rec) ∧
    (∀ e, (∀ rec ∈ (MessageCache.run 2 [exRec "$e1" "A", exRec "$e2" "B"]).cache "A",
        rec.event_id ≠ e) →
      ((MessageCache.run 2 [exRec "$e1" "A", exRec "$e2" "B"]).clear_room "A").index e
        = (MessageCache.run 2 [exRec "$e1" "A", exRec "$e2" "B"]).index e) ∧
    (∀ (b : BridgeState) (snapshot : RoomSnapshot),
      (delete_chat_history b snapshot).state = b.state ∧
      (delete_chat_history b snapshot).mutes = b.mutes ∧
      (delete_chat_history b snapshot).messages
        = b.messages.clear_room snapshot.room_id) :=
  ⟨cacheInv_run 2 [exRec "$e1" "A", exRec "$e2" "B"] (by decide),
   clear_room_frame (MessageCache.run 2 [exRec "$e1" "A", exRec "$e2" "B"])
     (cacheInv_run 2 [exRec "$e1" "A", exRec "$e2" "B"] (by decide)) "A"⟩

/-- Claim C9: after `set(c, e)`, `get c` returns `e` when `e > 0` and `0`
when `e ≤ 0` (the entry having been removed); every other contact id's
entry and `get` value are unchanged; and `get` of a never-stored contact
id returns `0`. -/
theorem muteStore_set_get (s : MuteStore) (c : String) (e : Int) :
    (0 < e → (s.set c e).get c = e ∧ (s.set c e).data c = some e) ∧
    (e ≤ 0 → (s.set c e).get c = 0 ∧ (s.set c e).data c = none) ∧
    (∀ c', c' ≠ c → (s.set c e).get c' = s.get c' ∧ (s.set c e).data c' = s.data c') ∧
    (∀ c'', MuteStore.empty.get c'' = 0) := by
  refine ⟨?_, ?_, ?_, ?_⟩
  · intro he
    have hne : ¬ e ≤ 0 := by omega
    simp [MuteStore.set, MuteStore.get, hne]
  · intro he
    simp [MuteStore.set, MuteStore.get, he]
  · intro c' hc
    by_cases he : e ≤ 0 <;> simp [MuteStore.set, MuteStore.get, he, hc]
  · intro c''
    simp [MuteStore.empty, MuteStore.get]

/-- Witness for C9 at a concrete store and contact. -/
theorem muteStore_set_get_witness :
    ((0 : Int) < 5 → (MuteStore.empty.set "c1" 5).get "c1" = 5 ∧
      (MuteStore.empty.set "c1" 5).data "c1" = some 5) ∧
    ((5 : Int) ≤ 0 → (MuteStore.empty.set "c1" 5).get "c1" = 0 ∧
      (MuteStore.empty.set "c1" 5).data "c1" = none) ∧
    (∀ c', c' ≠ "c1" → (MuteStore.empty.set "c1" 5).get c' = MuteStore.empty.get c' ∧
      (MuteStore.empty.set "c1" 5).data c' = MuteStore.empty.data c') ∧
    (∀ c'', MuteStore.empty.get c'' = 0) :=
  muteStore_set_get MuteStore.empty "c1" 5

/-- Claim C4: `set_mute` stores expiration `0` (removing the entry) for
level `-1`, `now + 28800` for level `0`, `now + 604800` for level `1`,
`now + 315360000` for level `2`, and `now + 0` for any other level. -/
theorem set_mute_levels (mutes : MuteStore) (now : Int) (c : String)
    (hnow : 0 ≤ now) :
    ((set_mute mutes now c (-1)).get c = 0 ∧
      (set_mute mutes now c (-1)).data c = none) ∧
    (set_mute mutes now c 0).get c = now + 28800 ∧
    (set_mute mutes now c 1).get c = now + 604800 ∧
    (set_mute mutes now c 2).get c = now + 315360000 ∧
    (∀ mute_level : Int, mute_level ≠ -1 → mute_level ≠ 0 → mute_level ≠ 1 →
      mute_level ≠ 2 → (set_mute mutes now c mute_level).get c = now + 0) := by
  refine ⟨?_, ?_, ?_, ?_, ?_⟩
  · simp [set_mute, MuteStore.set, MuteStore.get]
  · have h : ¬ (now + 28800 ≤ 0) := by omega
    norm_num [set_mute, MuteStore.set, MuteStore.get, h]
  · have h : ¬ (now + 604800 ≤ 0) := by omega
    norm_num [set_mute, MuteStore.set, MuteStore.get, h]
  · have h : ¬ (now + 315360000 ≤ 0) := by omega
    norm_num [set_mute, MuteStore.set, MuteStore.get, h]
  · intro mute_level h1 h0 h1' h2
    by_cases hn : now + 0 ≤ 0
    · have hz : now = 0 := by omega
      simp [set_mute, MuteStore.set, MuteStore.get, h1, h0, h1', h2, hz]
    · have hz : ¬ (now ≤ 0) := by omega
      simp [set_mute, MuteStore.set, MuteStore.get, h1, h0, h1', h2, hz]

/-- Witness for C4 at a concrete time and contact. -/
theorem set_mute_levels_witness :
    (0 : Int) ≤ 1700000000 ∧
    (((set_mute MuteStore.empty 1700000000 "c1" (-1)).get "c1" = 0 ∧
       (set_mute MuteStore.empty 1700000000 "c1" (-1)).data "c1" = none) ∧
     (set_mute MuteStore.empty 1700000000 "c1" 0).get "c1" = 1700000000 + 28800 ∧
     (set_mute MuteStore.empty 1700000000 "c1" 1).get "c1" = 1700000000 + 604800 ∧
     (set_mute MuteStore.empty 1700000000 "c1" 2).get "c1" = 1700000000 + 315360000 ∧
     (∀ mute_level : Int, mute_level ≠ -1 → mute_level ≠ 0 → mute_level ≠ 1 →
       mute_level ≠ 2 →
       (set_mute MuteStore.empty 1700000000 "c1" mute_level).get "c1"
         = 1700000000 + 0)) :=
  ⟨by norm_num, set_mute_levels MuteStore.empty 1700000000 "c1" (by norm_num)⟩

/-- Claim C8: the content-type mapping of `_map_msgtype`.  The audio
branch tests the voice flag for *truthiness*, not presence: an `m.audio`
event whose voice flag is present but falsy — exactly what
`send_voice_note` produces with its `{}` marker — maps to `"audio"`,
not `"ptt"`. -/
theorem map_msgtype_table (content : EventContent) :
    (_map_msgtype "m.text" content = "chat" ∧
     _map_msgtype "m.notice" content = "chat" ∧
     _map_msgtype "m.emote" content = "chat" ∧
     _map_msgtype "m.image" content = "image" ∧
     _map_msgtype "m.video" content = "video" ∧
     _map_msgtype "m.file" content = "document" ∧
     _map_msgtype "m.location" content = "location" ∧
     _map_msgtype "m.sticker" content = "sticker") ∧
    (content.voice = some true → _map_msgtype "m.audio" content = "ptt") ∧
    (content.voice ≠ some true → _map_msgtype "m.audio" content = "audio") ∧
    (_map_msgtype "m.audio" sentVoiceNoteContent = "audio" ∧
      sentVoiceNoteContent.voice = some false) ∧
    (∀ t : String, t ≠ "m.text" → t ≠ "m.notice" → t ≠ "m.emote" →
      t ≠ "m.image" → t ≠ "m.video" → t ≠ "m.file" → t ≠ "m.audio" →
      t ≠ "m.location" → t ≠ "m.sticker" → _map_msgtype t content = "chat") := by
  refine ⟨?_, ?_, ?_, ?_, ?_⟩
  · refine ⟨?_, ?_, ?_, ?_, ?_, ?_, ?_, ?_⟩ <;> simp [_map_msgtype]
  · intro h
    simp [_map_msgtype, h]
  · intro h
    simp [_map_msgtype, h]
  · exact ⟨by simp [_map_msgtype, sentVoiceNoteContent], rfl⟩
  · intro t h1 h2 h3 h4 h5 h6 h7 h8 h9
    simp [_map_msgtype, h1, h2, h3, h4, h5, h6, h7, h8, h9]

/-- Witness for C8: the mapping evaluated at the voice-note content
produced by `send_voice_note` and at an unrecognized type. -/
theorem map_msgtype_table_witness :
    sentVoiceNoteContent.voice = some false ∧
    _map_msgtype "m.audio" sentVoiceNoteContent = "audio" ∧
    _map_msgtype "m.text" sentVoiceNoteContent = "chat" ∧
    _map_msgtype "x.unknown" sentVoiceNoteContent = "chat" :=
  ⟨rfl, (map_msgtype_table sentVoiceNoteContent).2.2.1 (by decide),
   (map_msgtype_table sentVoiceNoteContent).1.1,
   (map_msgtype_table sentVoiceNoteContent).2.2.2.2 "x.unknown" (by decide)
     (by decide) (by decide) (by decide) (by decide) (by decide) (by decide)
     (by decide) (by decide)⟩

/-- Two hex characters of any byte are hex digits. -/
lemma byteToHex_mem (b : Nat) : ∀ ch ∈ byteToHex b, ch ∈ hexChars := by
  have h16 : ∀ m, m < 16 → hexChars.getD m '0' ∈ hexChars := by decide
  intro ch hc
  simp only [byteToHex, List.mem_cons, List.not_mem_nil, or_false] at hc
  rcases hc with h | h <;> subst h
  · exact h16 _ (Nat.mod_lt _ (by norm_num))
  · exact h16 _ (Nat.mod_lt _ (by norm_num))

/-- Every character of a hex digest is a lowercase hex digit. -/
lemma hexdigest_mem (digest : List Nat) :
    ∀ ch ∈ (hexdigest digest).data, ch ∈ hexChars := by
  induction digest with
  | nil =>
    intro ch hc
    simp [hexdigest] at hc
  | cons b rest ih =>
    intro ch hc
    simp only [hexdigest, List.map_cons, List.foldr_cons] at hc
    rcases List.mem_append.mp hc with h | h
    · exact byteToHex_mem b ch h
    · exact ih ch h

/-- A hex digest has two characters per byte. -/
lemma hexdigest_length (digest : List Nat) :
    (hexdigest digest).data.length = 2 * digest.length := by
  induction digest with
  | nil => simp [hexdigest]
  | cons b rest ih =>
    simp only [hexdigest, List.map_cons, List.foldr_cons, List.length_append,
      List.length_cons] at ih ⊢
    simp [byteToHex]
    omega

/-- A SHA-1 digest is 20 bytes. -/
lemma sha1_length (msg : List Nat) : (sha1 msg).length = 20 := by
  simp [sha1, wordBE]

/-- An MD5 digest is 16 bytes. -/
lemma md5_length (msg : List Nat) : (md5 msg).length = 16 := by
  simp [md5, wordLE]

/-- Claim C10: derived contact ids are exactly 16 lowercase hex
characters (for both room ids and user ids), and the legacy address is
the contact id with an `@g.us` / `@c.us` suffix, so the group and direct
forms of one contact id always differ. -/
theorem contact_id_shape (room_id user_id contact_id : String) :
    (contact_id_from_room room_id).data.length = 16 ∧
    (∀ ch ∈ (contact_id_from_room room_id).data, ch ∈ hexChars) ∧
    (contact_id_from_user user_id).data.length = 16 ∧
    (∀ ch ∈ (contact_id_from_user user_id).data, ch ∈ hexChars) ∧
    jid_from_contact contact_id true = contact_id ++ "@g.us" ∧
    jid_from_contact contact_id false = contact_id ++ "@c.us" ∧
    jid_from_contact contact_id true ≠ jid_from_contact contact_id false := by
  refine ⟨?_, ?_, ?_, ?_, ?_, ?_, ?_⟩
  · show ((hexdigest (sha1 (strBytes room_id))).data.take 16).length = 16
    rw [List.length_take, hexdigest_length, sha1_length]
    norm_num
  · intro ch hc
    exact hexdigest_mem _ ch (List.take_subset _ _ hc)
  · show ((hexdigest (md5 (strBytes user_id))).data.take 16).length = 16
    rw [List.length_take, hexdigest_length, md5_length]
    norm_num
  · intro ch hc
    exact hexdigest_mem _ ch (List.take_subset _ _ hc)
  · apply String.ext
    simp [jid_from_contact, String.data_append]
  · apply String.ext
    simp [jid_from_contact, String.data_append]
  · intro hcon
    have hd := congrArg String.data hcon
    simp [jid_from_contact, String.data_append] at hd

/-- Claim C5: for a message event carrying a reply reference to event id
`a`: if `a` is cached, the translated payload embeds the cached body and
type as the quoted message together with the quoted participant and
stanza id, and sets `hasQuotedMsg`; if `a` is not cached, translation
still succeeds with `hasQuotedMsg` false and no quoted payload. -/
theorem convert_message_reply (self_user_id : String) (messages : MessageCache)
    (now_ms : Int) (snapshot : RoomSnapshot) (event : MatrixEvent) (a : String)
    (hreply : event.content.in_reply_to = some (some a)) :
    (∀ recA, messages.get_message a = some recA →
      ∃ p, _convert_message self_user_id messages now_ms snapshot event = some p ∧
        p.hasQuotedMsg = true ∧
        p.data.quotedMsg = some { body := recA.payload.body,
                                  type := recA.payload.type } ∧
        p.data.quotedParticipant = some recA.payload.id.participant_user ∧
        p.data.quotedStanzaID = some recA.payload.id.serialized) ∧
    (messages.get_message a = none →
      ∃ p, _convert_message self_user_id messages now_ms snapshot event = some p ∧
        p.hasQuotedMsg = false ∧ p.data.quotedMsg = none ∧
        p.data.quotedParticipant = none ∧ p.data.quotedStanzaID = none) := by
  constructor
  · intro recA hfound
    simp only [_convert_message, hreply, hfound]
    exact ⟨_, rfl, rfl, rfl, rfl, rfl⟩
  · intro hmiss
    simp only [_convert_message, hreply, hmiss]
    exact ⟨_, rfl, rfl, rfl, rfl, rfl⟩

/-- Witness for C5: a reply to a cached and to an uncached event id. -/
theorem convert_message_reply_witness :
    exReplyEvent.content.in_reply_to = some (some "$a") ∧
    ((∀ recA, (MessageCache.run 512 [exRec "$a" "!r:hs"]).get_message "$a" = some recA →
      ∃ p, _convert_message "@me:hs" (MessageCache.run 512 [exRec "$a" "!r:hs"]) 0
            exSnapshot exReplyEvent = some p ∧
        p.hasQuotedMsg = true ∧
        p.data.quotedMsg = some { body := recA.payload.body,
                                  type := recA.payload.type } ∧
        p.data.quotedParticipant = some recA.payload.id.participant_user ∧
        p.data.quotedStanzaID = some recA.payload.id.serialized) ∧
    ((MessageCache.run 512 [exRec "$a" "!r:hs"]).get_message "$a" = none →
      ∃ p, _convert_message "@me:hs" (MessageCache.run 512 [exRec "$a" "!r:hs"]) 0
            exSnapshot exReplyEvent = some p ∧
        p.hasQuotedMsg = false ∧ p.data.quotedMsg = none ∧
        p.data.quotedParticipant = none ∧ p.data.quotedStanzaID = none)) :=
  ⟨rfl, convert_message_reply "@me:hs" (MessageCache.run 512 [exRec "$a" "!r:hs"]) 0
     exSnapshot exReplyEvent "$a" rfl⟩

/-- The number of `REVOKE_MESSAGE` broadcasts produced by the timeline
loop equals the number of redaction events in the batch. -/
lemma processTimeline_revoke_count (self_user_id : String) (now_ms : Int)
    (events : List MatrixEvent) :
    ∀ (snap : RoomSnapshot) (msgs : MessageCache) (outs : List BroadcastMsg),
      (events.foldl (processTimelineStep self_user_id now_ms)
          (snap, msgs, outs)).2.2.count BroadcastMsg.revokeMessage
        = outs.count BroadcastMsg.revokeMessage
          + events.countP (fun e => e.type == "m.room.redaction") := by
  induction events with
  | nil =>
    intro snap msgs outs
    simp
  | cons ev rest ih =>
    intro snap msgs outs
    rw [List.foldl_cons, List.countP_cons]
    by_cases hm : ev.type = "m.room.message"
    · have ht : (ev.type == "m.room.redaction") = false := by simp [hm]
      rw [ht]
      simp only [if_neg Bool.false_ne_true, processTimelineStep, if_pos hm]
      cases hconv : _convert_message self_user_id msgs now_ms snap ev with
      | none =>
        simp only [hconv]
        rw [ih]
        omega
      | some converted =>
        simp only [hconv]
        rw [ih]
        simp [List.count_append, List.count_cons]
    · by_cases hr : ev.type = "m.room.redaction"
      · have ht : (ev.type == "m.room.redaction") = true := by simp [hr]
        rw [ht]
        simp only [if_pos rfl, processTimelineStep, if_neg hm, if_pos hr]
        rw [ih]
        simp [List.count_append, List.count_cons]
        omega
      · have ht : (ev.type == "m.room.redaction") = false := by simp [hr]
        rw [ht]
        simp only [if_neg Bool.false_ne_true, processTimelineStep, if_neg hm,
          if_neg hr]
        rw [ih]
        omega

/-- Claim C7: a timeline batch with exactly one redaction event produces
exactly one `REVOKE_MESSAGE` broadcast, and processing a redaction event
leaves the message cache (every buffer and the index) and the snapshot
completely unchanged, emitting only the revoke broadcast. -/
theorem process_timeline_redaction (self_user_id : String) (now_ms : Int)
    (snapshot : RoomSnapshot) (messages : MessageCache)
    (events : List MatrixEvent)
    (hone : events.countP (fun e => e.type == "m.room.redaction") = 1) :
    (_process_timeline self_user_id now_ms snapshot messages events).2.2.count
        BroadcastMsg.revokeMessage = 1 ∧
    (∀ ev : MatrixEvent, ev.type = "m.room.redaction" →
      _process_timeline self_user_id now_ms snapshot messages [ev]
        = (snapshot, messages, [BroadcastMsg.revokeMessage])) := by
  constructor
  · rw [_process_timeline, processTimeline_revoke_count, hone]
    simp
  · intro ev hr
    have hm : ¬ (ev.type = "m.room.message") := by
      rw [hr]
      decide
    simp [_process_timeline, processTimelineStep, hm, hr]

/-- Witness for C7 at a concrete one-redaction batch. -/
theorem process_timeline_redaction_witness :
    ([exRedactionEvent].countP (fun e => e.type == "m.room.redaction") = 1) ∧
    ((_process_timeline "@me:hs" 0 exSnapshot (MessageCache.empty 512)
        [exRedactionEvent]).2.2.count BroadcastMsg.revokeMessage = 1 ∧
     (∀ ev : MatrixEvent, ev.type = "m.room.redaction" →
       _process_timeline "@me:hs" 0 exSnapshot (MessageCache.empty 512) [ev]
         = (exSnapshot, MessageCache.empty 512, [BroadcastMsg.revokeMessage]))) :=
  ⟨by decide, process_timeline_redaction "@me:hs" 0 exSnapshot
    (MessageCache.empty 512) [exRedactionEvent] (by decide)⟩

/-- One server step cannot put a broadcast frame on an unauthenticated
client's writer. -/
lemma socketStep_unauth_no_event (server_token client_token : String)
    (st : ServerState) (a : SocketAction)
    (hInv : ∀ c ∈ st.clients, c.authenticated = false →
      ∀ m, SocketFrame.event m ∉ c.received) :
    ∀ c ∈ (socketStep server_token client_token st a).clients,
      c.authenticated = false → ∀ m, SocketFrame.event m ∉ c.received := by
  cases a with
  | connect cid =>
    intro c hc hauth m
    rcases List.mem_append.mp hc with hin | hin
    · exact hInv c hin hauth m
    · rw [List.mem_singleton] at hin
      subst hin
      simp
  | payloadFrom cid p =>
    intro c hc hauth m
    rcases List.mem_map.mp hc with ⟨c0, hc0, heq⟩
    by_cases hcond : c0.cid = cid ∧ c0.connected
    · rw [if_pos hcond] at heq
      cases p with
      | malformed =>
        subst heq
        exact hInv c0 hc0 hauth m
      | jsonData sender token =>
        by_cases hval : c0.authenticated
        · rw [handlePayloadClient, if_pos hval] at heq
          subst heq
          exact hInv c0 hc0 hauth m
        · have hval' : c0.authenticated = false := by
            exact Bool.not_eq_true _ ▸ eq_false_of_ne_true hval
          by_cases hok : sender = some "wspl-client" ∧ token = some client_token
          · rw [handlePayloadClient, if_neg hval, if_pos hok] at heq
            subst heq
            simp at hauth
          · rw [handlePayloadClient, if_neg hval, if_neg hok] at heq
            subst heq
            simp only [List.mem_append, List.mem_singleton]
            intro hcon
            rcases hcon with h | h
            · exact hInv c0 hc0 hval' m h
            · exact SocketFrame.noConfusion h
    · rw [if_neg hcond] at heq
      subst heq
      exact hInv c0 hc0 hauth m
  | broadcast msg =>
    intro c hc hauth m
    rcases List.mem_map.mp hc with ⟨c0, hc0, heq⟩
    by_cases hcond : (c0.connected && c0.authenticated) = true
    · rw [if_pos hcond] at heq
      subst heq
      simp only [Bool.and_eq_true] at hcond
      simp at hauth
      rw [hauth] at hcond
      exact absurd hcond.2 (by decide)
    · rw [if_neg hcond] at heq
      subst heq
      exact hInv c0 hc0 hauth m

/-- Over any action sequence, unauthenticated clients have received no
broadcast frames. -/
lemma socketFoldl_unauth (server_token client_token : String)
    (acts : List SocketAction) :
    ∀ st : ServerState,
      (∀ c ∈ st.clients, c.authenticated = false →
        ∀ m, SocketFrame.event m ∉ c.received) →
      ∀ c ∈ (acts.foldl (socketStep server_token client_token) st).clients,
        c.authenticated = false → ∀ m, SocketFrame.event m ∉ c.received := by
  induction acts with
  | nil =>
    intro st hInv
    exact hInv
  | cons a rest ih =>
    intro st hInv
    rw [List.foldl_cons]
    exact ih _ (socketStep_unauth_no_event server_token client_token st a hInv)

/-- A dropped (disconnected) client's record is never touched again. -/
lemma socketStep_disconnected (server_token client_token : String)
    (st : ServerState) (a : SocketAction) :
    ∀ c ∈ st.clients, c.connected = false →
      c ∈ (socketStep server_token client_token st a).clients := by
  cases a with
  | connect cid =>
    intro c hc _
    exact List.mem_append.mpr (Or.inl hc)
  | payloadFrom cid p =>
    intro c hc hconn
    have hcond : ¬ (c.cid = cid ∧ c.connected) := by
      rw [hconn]
      rintro ⟨_, hcon⟩
      exact Bool.noConfusion hcon
    have : (if c.cid = cid ∧ c.connected
        then handlePayloadClient client_token c p else c) = c := if_neg hcond
    rw [socketStep]
    exact this ▸ List.mem_map_of_mem _ hc
  | broadcast msg =>
    intro c hc hconn
    have hcond : (c.connected && c.authenticated) = false := by
      rw [hconn]
      simp
    rw [socketStep]
    have : (if c.connected && c.authenticated
        then { c with received := c.received ++ [SocketFrame.event msg] }
        else c) = c := by
      rw [hcond]
      simp
    exact this ▸ List.mem_map_of_mem _ hc

/-- Claim C3 (amended): (1) at every point of every action sequence, a
client that has not completed authentication has received no broadcast
frame — broadcasts go to authenticated connections only; (2) an
unauthenticated client's payload that is not a valid auth frame leaves it
disconnected and unauthenticated, with exactly a rejection frame appended
when the payload parsed as JSON and nothing appended when it was
malformed (malformed payloads are dropped *without* a rejection frame);
(3) a dropped client's record is never altered by later steps. -/
theorem socket_auth_protection (server_token client_token : String)
    (acts : List SocketAction) :
    (∀ c ∈ (socketRun server_token client_token acts).clients,
      c.authenticated = false → ∀ m, SocketFrame.event m ∉ c.received) ∧
    (∀ (c : SocketClient) (p : ClientPayload), c.authenticated = false →
      invalidAuth client_token p →
      (handlePayloadClient client_token c p).connected = false ∧
      (handlePayloadClient client_token c p).authenticated = false ∧
      (handlePayloadClient client_token c p).received
        = c.received ++ (match p with
            | .malformed => []
            | .jsonData _ _ => [SocketFrame.authReject])) ∧
    (∀ (st : ServerState) (a : SocketAction) (c : SocketClient),
      c ∈ st.clients → c.connected = false →
      c ∈ (socketStep server_token client_token st a).clients) := by
  refine ⟨?_, ?_, ?_⟩
  · exact socketFoldl_unauth server_token client_token acts { clients := [] }
      (by simp)
  · intro c p hauth hinvalid
    cases p with
    | malformed =>
      simp [handlePayloadClient, hauth]
    | jsonData sender token =>
      have hna : ¬ (c.authenticated = true) := by
        rw [hauth]
        exact Bool.noConfusion
      have hok : ¬ (sender = some "wspl-client" ∧ token = some client_token) :=
        hinvalid
      simp [handlePayloadClient, hna, hok, hauth]
  · intro st a c hc hconn
    exact socketStep_disconnected server_token client_token st a c hc hconn

/-- Witness for C3: a client sends a wrong-token auth frame, then a
broadcast happens; the conclusion is instantiated at that trace. -/
theorem socket_auth_protection_witness :
    (∀ c ∈ (socketRun "srv" "tok"
        [SocketAction.connect 0,
         SocketAction.payloadFrom 0 (ClientPayload.jsonData (some "wspl-client") (some "bad")),
         SocketAction.broadcast "evt"]).clients,
      c.authenticated = false → ∀ m, SocketFrame.event m ∉ c.received) ∧
    (∀ (c : SocketClient) (p : ClientPayload), c.authenticated = false →
      invalidAuth "tok" p →
      (handlePayloadClient "tok" c p).connected = false ∧
      (handlePayloadClient "tok" c p).authenticated = false ∧
      (handlePayloadClient "tok" c p).received
        = c.received ++ (match p with
            | .malformed => []
            | .jsonData _ _ => [SocketFrame.authReject])) ∧
    (∀ (st : ServerState) (a : SocketAction) (c : SocketClient),
      c ∈ st.clients → c.connected = false →
      c ∈ (socketStep "srv" "tok" st a).clients) :=
  socket_auth_protection "srv" "tok"
    [SocketAction.connect 0,
     SocketAction.payloadFrom 0 (ClientPayload.jsonData (some "wspl-client") (some "bad")),
     SocketAction.broadcast "evt"]

/-- Claim C3 counterexample: a malformed first payload disconnects the
client but no rejection frame is ever written to it — its whole frame log
is just the greeting — refuting "... is sent a rejection frame and
disconnected" for non-JSON first payloads. -/
theorem socket_malformed_no_reject :
    (socketRun "srv" "tok"
        [SocketAction.connect 0,
         SocketAction.payloadFrom 0 ClientPayload.malformed]).clients
      = [{ cid := 0, authenticated := false, connected := false,
           received := [SocketFrame.greeting "srv"] }] ∧
    ((socketRun "srv" "tok"
        [SocketAction.connect 0,
         SocketAction.payloadFrom 0 ClientPayload.malformed]).clients.all
      (fun c => !(c.received.contains SocketFrame.authReject))) = true := by
  constructor
  · decide
  · decide

/-- Claim C6 (amended): the chat list returned by `get_chats` is sorted
by last-activity timestamp descending (and is a permutation of one chat
dict per directory snapshot), while the group list is the group
snapshots' dicts in directory order — `get_chats` sorts only the chat
list, so the group list is *not* in general sorted (see the
counterexample). -/
theorem get_chats_sorted (directory : RoomDirectory) (messages : MessageCache)
    (mutes : MuteStore) (now : Int) :
    ((get_chats directory messages mutes now).1.Pairwise
        (fun a b => b.timestamp ≤ a.timestamp)) ∧
    ((get_chats directory messages mutes now).1.Perm
        (directory.all.map (_snapshot_to_chat messages mutes now))) ∧
    ((get_chats directory messages mutes now).2
        = (directory.all.filter (fun s => s.is_group)).map
            (_snapshot_to_chat messages mutes now)) := by
  refine ⟨?_, ?_, rfl⟩
  · simp only [get_chats]
    exact List.Pairwise.imp (fun hab => by simpa using hab)
      (@List.sorted_mergeSort ChatDict
        (fun a b => decide (b.timestamp ≤ a.timestamp))
        (fun a b c hab hbc => by
          simp only [decide_eq_true_eq] at hab hbc ⊢
          exact le_trans hbc hab)
        (fun a b => by
          simp only [Bool.or_eq_true, decide_eq_true_eq]
          exact le_total b.timestamp a.timestamp)
        (directory.all.map (_snapshot_to_chat messages mutes now)))
  · simp only [get_chats]
    exact List.mergeSort_perm _ _

/-- Claim C6 counterexample: with two group rooms in oldest-first
directory order, the returned group list is not sorted by activity
descending (`get_chats` sorts only the chat list). -/
theorem get_chats_groupList_unsorted :
    ¬ ((get_chats
          { rooms := [("r1", exGroupSnap "r1" 1), ("r2", exGroupSnap "r2" 2)] }
          (MessageCache.empty 512) MuteStore.empty 0).2.Pairwise
        (fun a b => b.timestamp ≤ a.timestamp)) := by
  decide
